import Mathlib

/-!
Verification of the CheapPizza coupon/menu crawler pipeline.

Text is modelled as `List Char` (JavaScript strings, UTF-16 points coincide
with code points for the characters used by this pipeline).  JavaScript
numbers that may be NaN are modelled as `Option Nat` (`none` = NaN); dates
are modelled by an order-isomorphic `Nat` encoding of the parsed
year/month/day.
-/

namespace CheapPizza

/-- Value of a decimal digit character. -/
def digitVal (c : Char) : Nat := c.toNat - '0'.toNat

/-- Number denoted by a list of decimal digit characters (most significant first). -/
def digitsToNat (l : List Char) : Nat := l.foldl (fun acc c => 10 * acc + digitVal c) 0

/-- Character for a single decimal digit. -/
def digitChar (n : Nat) : Char := Char.ofNat ('0'.toNat + n)

/-- Fuel-driven digit accumulator (structural recursion on the fuel, so that
concrete values reduce inside the kernel). -/
def natDigitsAux : Nat → Nat → List Char → List Char
  | 0, _, acc => acc
  | fuel + 1, n, acc =>
      if n < 10 then digitChar n :: acc
      else natDigitsAux fuel (n / 10) (digitChar (n % 10) :: acc)

/-- Decimal rendering of a natural number: model of JavaScript `String(i)`
for a nonnegative integer.  `n` itself is always enough fuel since `n / 10`
strictly decreases. -/
def natDigits (n : Nat) : List Char := natDigitsAux (n + 1) n []

/-- Model of JavaScript `s.padStart(5, '0')`. -/
def padStart5 (s : List Char) : List Char :=
  if 5 ≤ s.length then s else List.replicate (5 - s.length) '0' ++ s

/-- Model of JavaScript `Number(s)` on the fragment exercised by the crawler:
the empty string yields `0`, a nonempty all-digit string yields its decimal
value, and every other string yields NaN (`none`).  Signs, fractions,
exponents, hex and whitespace syntaxes are outside the model; range parts
produced by `split('-')` never contain a sign. -/
def jsNumber (s : List Char) : Option Nat :=
  if s = [] then some 0
  else if s.all Char.isDigit then some (digitsToNat s) else none

/-- Model of JavaScript `arg.split('-')` (auxiliary: `cur` is the reversed
pending segment). -/
def splitDashAux : List Char → List Char → List (List Char)
  | [], cur => [cur.reverse]
  | c :: rest, cur =>
      if c = '-' then cur.reverse :: splitDashAux rest []
      else splitDashAux rest (c :: cur)

/-- Model of JavaScript `arg.split('-')`. -/
def splitDash (s : List Char) : List (List Char) := splitDashAux s []

/-- One iteration of the `args.forEach` body of `parseArgsToCodes`
(crawler.ts:35-48, incremental crawler lines 65-78): a token containing `-`
is split, both parts go through `Number`, and a valid `start <= end` range
contributes the zero-padded decimal codes in ascending order; a token
without `-` is pushed as-is (padded) when numeric; all other tokens
contribute nothing. -/
def parseToken (arg : List Char) : List (List Char) :=
  if arg.contains '-' then
    match splitDash arg with
    | p0 :: p1 :: _ =>
        match jsNumber p0, jsNumber p1 with
        | some a, some b =>
            if a ≤ b then (List.range' a (b + 1 - a)).map (fun i => padStart5 (natDigits i))
            else []
        | _, _ => []
    | _ => []
  else
    match jsNumber arg with
    | some _ => [padStart5 arg]
    | none => []

/-- `parseArgsToCodes` (crawler.ts:33-50): concatenation of the codes
contributed by each token, in input order. -/
def parseArgsToCodes (args : List (List Char)) : List (List Char) :=
  args.flatMap parseToken

/-- A token is malformed for the generator when its range parts do not both
parse as numbers, or parse with `start > end`, or (for a dash-free token) it
is not numeric. -/
def malformedToken (tok : List Char) : Bool :=
  if tok.contains '-' then
    match splitDash tok with
    | p0 :: p1 :: _ =>
        match jsNumber p0, jsNumber p1 with
        | some a, some b => decide (b < a)
        | _, _ => true
    | _ => true
  else (jsNumber tok).isNone

/-! ### Dates and the persisted coupon collection (incremental crawler `main`) -/

def isLeapYear (y : Nat) : Bool := (y % 4 = 0 && y % 100 != 0) || y % 400 = 0

def daysInMonth (y m : Nat) : Nat :=
  if m = 2 then (if isLeapYear y then 29 else 28)
  else if m = 4 || m = 6 || m = 9 || m = 11 then 30 else 31

/-- Model of JavaScript `new Date(s)` on the `YYYY-M-D` strings this
pipeline produces (4-digit year, 1-2 digit month and day, in-range values):
a successful parse is encoded as `y*10000 + m*100 + d`, which is
order-isomorphic to the real timestamp across the parsed dates; any other
string is an Invalid Date (`none`).  Every numeric comparison of an Invalid
Date (NaN timestamp) is false in JavaScript. -/
def parseDate (s : List Char) : Option Nat :=
  match splitDash s with
  | [ys, ms, ds] =>
      if ys.length = 4 && ys.all Char.isDigit &&
         decide (1 ≤ ms.length) && decide (ms.length ≤ 2) && ms.all Char.isDigit &&
         decide (1 ≤ ds.length) && decide (ds.length ≤ 2) && ds.all Char.isDigit then
        let y := digitsToNat ys
        let m := digitsToNat ms
        let d := digitsToNat ds
        if decide (1 ≤ m) && decide (m ≤ 12) && decide (1 ≤ d) && decide (d ≤ daysInMonth y m) then
          some (y * 10000 + m * 100 + d)
        else none
      else none
  | _ => none

inductive DeliveryType
  | delivery
  | takeout
  | both
deriving DecidableEq

/-- The `CouponData` record of the incremental crawler (lines 47-56).
`originalPrice`/`discountedPrice` are JavaScript numbers, modelled as
`Option Nat` with `none` for NaN. -/
structure Coupon where
  code : List Char
  title : List Char
  items : List (List Char)
  originalPrice : Option Nat
  discountedPrice : Option Nat
  validUntil : List Char
  minPurchasePrice : Option Nat
  deliveryType : Option DeliveryType
deriving DecidableEq

/-- The predicate of the `loadedCoupons.filter` callback (incremental
crawler lines 430-434): a coupon with empty `validUntil` is kept; otherwise
it is kept exactly when `new Date(validUntil) >= now`, which is false both
for past dates and for Invalid Dates. -/
def keepCoupon (now : Nat) (c : Coupon) : Bool :=
  if c.validUntil = [] then true
  else
    match parseDate c.validUntil with
    | some t => decide (now ≤ t)
    | none => false

/-- Expiry filtering of the previously persisted collection (incremental
crawler lines 428-434). -/
def filterExpired (now : Nat) (l : List Coupon) : List Coupon :=
  l.filter (keepCoupon now)

/-- The pure content of one incremental run (incremental crawler `main`,
lines 416-484): parse the args into candidate codes, retain the non-expired
prior records, skip candidates whose code is already known, probe the rest
(`probe` abstracts `checkCouponValidity` + `fetchCouponDetails`; `none`
covers both a failed validity check and a failed detail fetch), and
concatenate retained records with the newly found ones. -/
def mergeRun (now : Nat) (prior : List Coupon)
    (probe : List Char → Option Coupon) (args : List (List Char)) : List Coupon :=
  let codes := parseArgsToCodes args
  let existing := filterExpired now prior
  let existingCodes := existing.map Coupon.code
  let codesToScan := codes.filter (fun c => !existingCodes.contains c)
  let validCoupons := codesToScan.filterMap probe
  existing ++ validCoupons

/-! ### Regular-expression machinery

The crawler's field extraction uses JavaScript regexes.  They are embedded
as backtracking matchers over `List Char`: a `Matcher` returns the list of
possible rests after a match at the current position, in the engine's
backtracking priority order (first = preferred).  A search tries positions
left to right, as `String.prototype.match`/`test` do. -/

def Matcher : Type := List Char → List (List Char)

/-- Empty pattern. -/
def meps : Matcher := fun s => [s]

/-- Literal pattern. -/
def mlit (pat : String) : Matcher := fun s =>
  if pat.data.isPrefixOf s then [s.drop pat.data.length] else []

def charLowerEq (a b : Char) : Bool := a.toLower = b.toLower

def isPrefixOfCI : List Char → List Char → Bool
  | [], _ => true
  | _ :: _, [] => false
  | p :: ps, c :: cs => charLowerEq p c && isPrefixOfCI ps cs

/-- Literal pattern under the `i` flag (ASCII case folding, as these
patterns only use ASCII letters). -/
def mlitCI (pat : String) : Matcher := fun s =>
  if isPrefixOfCI pat.data s then [s.drop pat.data.length] else []

/-- Concatenation of two patterns, preserving backtracking order. -/
def mseq (a b : Matcher) : Matcher := fun s => (a s).flatMap b

/-- `p*` over a character class: all ways to consume a prefix of the
maximal run, longest first when greedy, shortest first when lazy. -/
def mstar (lazy : Bool) (p : Char → Bool) : Matcher := fun s =>
  let n := (s.takeWhile p).length
  let rests := (List.range (n + 1)).map (fun k => s.drop k)
  if lazy then rests else rests.reverse

/-- Greedy `(pat)?`. -/
def moptM (m : Matcher) : Matcher := fun s => m s ++ [s]

/-- Greedy capture of a nonempty character-class run `(cls+)`: candidate
(captured, rest) splits, longest capture first. -/
def capRun (p : Char → Bool) (s : List Char) : List (List Char × List Char) :=
  let n := (s.takeWhile p).length
  (List.range n).map (fun k => (s.take (n - k), s.drop (n - k)))

/-- Capture of a single class character. -/
def capOne (p : Char → Bool) (s : List Char) : List (List Char × List Char) :=
  match s with
  | c :: rest => if p c then [([c], rest)] else []
  | [] => []

/-- Match `pre (cap) post` at the current position, returning the first
(capture) success in backtracking order. -/
def matchCapAt (pre : Matcher) (cap : List Char → List (List Char × List Char))
    (post : Matcher) (s : List Char) : Option (List Char) :=
  ((pre s).flatMap (fun r1 =>
    (cap r1).flatMap (fun gr => (post gr.2).map (fun _ => gr.1)))).head?

/-- Leftmost search for a capturing pattern (`text.match(re)`, returning
the capture group). -/
def searchCap (pre : Matcher) (cap : List Char → List (List Char × List Char))
    (post : Matcher) : List Char → Option (List Char)
  | [] => matchCapAt pre cap post []
  | c :: t =>
      match matchCapAt pre cap post (c :: t) with
      | some g => some g
      | none => searchCap pre cap post t

/-- Does the pattern match at the current position? -/
def matchTestAt (m : Matcher) (s : List Char) : Bool := !(m s).isEmpty

/-- Leftmost search for a non-capturing pattern (`re.test(text)`). -/
def searchTest (m : Matcher) : List Char → Bool
  | [] => matchTestAt m []
  | c :: t => matchTestAt m (c :: t) || searchTest m t

/-- JavaScript `haystack.includes(pat)`. -/
def containsSub (pat : List Char) : List Char → Bool
  | [] => pat.isPrefixOf []
  | c :: rest => pat.isPrefixOf (c :: rest) || containsSub pat rest

/-- JavaScript `s.trim()`. -/
def trimChars (s : List Char) : List Char :=
  ((s.dropWhile Char.isWhitespace).reverse.dropWhile Char.isWhitespace).reverse

/-! ### `extractMinPurchasePrice` (incremental crawler lines 164-240) -/

/-- `/NT\$(\d+)元?起?\(含\)以上/` -/
def minP1 (t : List Char) : Option (List Char) :=
  searchCap (mlit "NT$") (capRun Char.isDigit)
    (mseq (moptM (mlit "元")) (mseq (moptM (mlit "起")) (mlit "(含)以上"))) t

/-- `/限定NT\$(\d+)元?起?\(含\)以上/` -/
def minP2 (t : List Char) : Option (List Char) :=
  searchCap (mlit "限定NT$") (capRun Char.isDigit)
    (mseq (moptM (mlit "元")) (mseq (moptM (mlit "起")) (mlit "(含)以上"))) t

/-- `/NT\$(\d+)\(含\)以上/` -/
def minP3 (t : List Char) : Option (List Char) :=
  searchCap (mlit "NT$") (capRun Char.isDigit) (mlit "(含)以上") t

/-- `/\$(\d+)元?起?\(含\)以上/` -/
def minP4 (t : List Char) : Option (List Char) :=
  searchCap (mlit "$") (capRun Char.isDigit)
    (mseq (moptM (mlit "元")) (mseq (moptM (mlit "起")) (mlit "(含)以上"))) t

/-- `/限定\$(\d+)元?起?\(含\)以上/` -/
def minP5 (t : List Char) : Option (List Char) :=
  searchCap (mlit "限定$") (capRun Char.isDigit)
    (mseq (moptM (mlit "元")) (mseq (moptM (mlit "起")) (mlit "(含)以上"))) t

/-- Priority 1: the `minPricePatterns` loop — first pattern (in list
order) whose leftmost match exists wins. -/
def minPriceRules (t : List Char) : Option Nat :=
  (minP1 t <|> minP2 t <|> minP3 t <|> minP4 t <|> minP5 t).map digitsToNat

/-- Priority 2: `/此套餐合計(?:NT)?\$(\d+)/`. -/
def comboTotalRule (t : List Char) : Option Nat :=
  (searchCap (mseq (mlit "此套餐合計") (mseq (moptM (mlit "NT")) (mlit "$")))
    (capRun Char.isDigit) meps t).map digitsToNat

/-- Priority 3: the `startingPricePatterns` loop
(`/=\s*NT\$(\d+)元?起/`, `/=\s*\$(\d+)元?起/`, `/=NT\$(\d+)元?起/`,
`/=\$(\d+)起/`). -/
def startingPriceRules (t : List Char) : Option Nat :=
  (searchCap (mseq (mlit "=") (mseq (mstar false Char.isWhitespace) (mlit "NT$")))
      (capRun Char.isDigit) (mseq (moptM (mlit "元")) (mlit "起")) t <|>
   searchCap (mseq (mlit "=") (mseq (mstar false Char.isWhitespace) (mlit "$")))
      (capRun Char.isDigit) (mseq (moptM (mlit "元")) (mlit "起")) t <|>
   searchCap (mlit "=NT$") (capRun Char.isDigit)
      (mseq (moptM (mlit "元")) (mlit "起")) t <|>
   searchCap (mlit "=$") (capRun Char.isDigit) (mlit "起") t).map digitsToNat

/-- `/9吋[^。]*比薩[^。]*買1送1/.test`. -/
def test9inchBogo (t : List Char) : Bool :=
  searchTest (mseq (mlit "9吋") (mseq (mstar false (· != '。'))
    (mseq (mlit "比薩") (mseq (mstar false (· != '。')) (mlit "買1送1"))))) t

/-- `/小比薩[^。]*買1送1/.test`. -/
def testSmallBogo (t : List Char) : Bool :=
  searchTest (mseq (mlit "小比薩") (mseq (mstar false (· != '。')) (mlit "買1送1"))) t

/-- `/買小送小/.test`. -/
def testBuySmall (t : List Char) : Bool := containsSub ("買小送小").data t

/-- `/單點[^。]*大比薩[^。]*半價/.test`. -/
def testHalfOff (t : List Char) : Bool :=
  searchTest (mseq (mlit "單點") (mseq (mstar false (· != '。'))
    (mseq (mlit "大比薩") (mseq (mstar false (· != '。')) (mlit "半價"))))) t

/-- `/單點[^。]*大比薩[^。]*?(\d)折/` with its single-digit capture. -/
def discountDigitRule (t : List Char) : Option (List Char) :=
  searchCap (mseq (mlit "單點") (mseq (mstar false (· != '。'))
    (mseq (mlit "大比薩") (mstar true (· != '。')))))
    (capOne Char.isDigit) (mlit "折") t

/-- `Math.round(x / 10)` for a natural `x`: on the values this pipeline
produces (`565 * d`), IEEE `x * 0.1` rounds exactly like half-up decimal
division, so the model divides with half-up rounding. -/
def jsRound10 (x : Nat) : Nat := (x + 5) / 10

/-- `extractMinPurchasePrice` (incremental crawler lines 164-240): the
early-return cascade over the six rule groups. -/
def extractMinPurchasePrice (t : List Char) : Option Nat :=
  match minPriceRules t with
  | some v => some v
  | none =>
  match comboTotalRule t with
  | some v => some v
  | none =>
  match startingPriceRules t with
  | some v => some v
  | none =>
  if test9inchBogo t || testSmallBogo t then some 320
  else if testBuySmall t then some 320
  else if testHalfOff t then some (jsRound10 (565 * 5))
  else
    match discountDigitRule t with
    | some g => some (jsRound10 (565 * digitsToNat g))
    | none => none

/-! ### `extractDeliveryType` (incremental crawler lines 243-288) -/

/-- `text.replace(/\*外送服務[^。\n*]*/g, '')` with fuel (each step
consumes at least one character, so `s.length` fuel always suffices). -/
def stripDeliveryNotesAux : Nat → List Char → List Char
  | 0, s => s
  | _ + 1, [] => []
  | fuel + 1, c :: rest =>
      if c = '*' && ("外送服務").data.isPrefixOf rest then
        stripDeliveryNotesAux fuel
          ((rest.drop 4).dropWhile (fun ch => ch != '。' && ch != '\n' && ch != '*'))
      else c :: stripDeliveryNotesAux fuel rest

def stripDeliveryNotes (s : List Char) : List Char := stripDeliveryNotesAux s.length s

/-- The `lowerText` value of `extractDeliveryType`: disclaimer boilerplate
stripped, then `toLowerCase` (only ASCII letters are affected). -/
def cleanedLower (t : List Char) : List Char := (stripDeliveryNotes t).map Char.toLower

/-- `extractDeliveryType` (incremental crawler lines 243-288). -/
def extractDeliveryType (t : List Char) : Option DeliveryType :=
  if containsSub ("外送限定").data t then some .delivery
  else if containsSub ("外帶限定").data t then some .takeout
  else
    let lowerText := cleanedLower t
    if containsSub ("限外送").data lowerText && !containsSub ("外帶").data lowerText then
      some .delivery
    else if containsSub ("限外帶").data lowerText && !containsSub ("外送").data lowerText then
      some .takeout
    else if (containsSub ("外送/外帶").data lowerText || containsSub ("外帶/外送").data lowerText) ||
            (containsSub ("外送").data lowerText && containsSub ("外帶").data lowerText) then
      some .both
    else if containsSub ("外送").data lowerText then some .delivery
    else if containsSub ("外帶").data lowerText then some .takeout
    else none

/-! ### `checkCouponValidity` (incremental crawler lines 84-129) and the
`type_id` fallback (lines 461-466) -/

/-- Outcome of the outbound `fetch` of the validity probe. -/
inductive ProbeResponse
  | netError
  | httpResponse (ok : Bool) (body : List Char)

/-- The `data` member of a parsed probe response (only the `type_id`
access is relevant; `none` models an absent member). -/
structure RespData where
  type_id : Option (List Char)
deriving DecidableEq

/-- A parsed probe response body, as consumed by `main`
(`checkResult.success`, `checkResult.data?.type_id`). -/
structure CheckResult where
  success : Bool
  data : Option RespData
deriving DecidableEq

/-- `checkCouponValidity` after the request resolved (lines 93-128):
a thrown fetch, a non-ok status, an empty/whitespace body, and a body that
`JSON.parse` rejects (`jsonParse` returns `none`) all yield `null`;
otherwise the parsed body is returned.  The function never throws. -/
def checkCouponValidity (resp : ProbeResponse)
    (jsonParse : List Char → Option CheckResult) : Option CheckResult :=
  match resp with
  | .netError => none
  | .httpResponse ok body =>
      if !ok then none
      else if trimChars body = [] then none
      else jsonParse body

/-- `checkResult.data?.type_id || '1025'` (line 465): an absent `data`,
an absent `type_id` and an empty (falsy) `type_id` all fall back to
`'1025'`. -/
def resolveTypeId (r : CheckResult) : List Char :=
  match r.data with
  | none => ("1025").data
  | some d =>
      match d.type_id with
      | none => ("1025").data
      | some s => if s = [] then ("1025").data else s

/-! ### Price extraction in `fetchCouponDetails`
(incremental crawler lines 323-339 and 381-387) -/

/-- `parseInt(g.replace(/,/g, ''), 10)` on a `[\d,]+` capture: strip the
thousands separators, then parse; a capture with no digit is NaN
(`none`). -/
def parseCommaNum (g : List Char) : Option Nat :=
  let ds := g.filter (fun c => c != ',')
  if ds = [] then none else some (digitsToNat ds)

/-- Capture class `[\d,]+`. -/
def capCommaDigits : List Char → List (List Char × List Char) :=
  capRun (fun c => c.isDigit || c = ',')

/-- `/<div class="descPrice[^"]*"[^>]*>\$\s*([\d,]+)<\/div>/i`. -/
def searchDescPrice (html : List Char) : Option (List Char) :=
  searchCap
    (mseq (mlitCI "<div class=\"descPrice")
      (mseq (mstar false (· != '"'))
        (mseq (mlit "\"")
          (mseq (mstar false (· != '>'))
            (mseq (mlit ">") (mseq (mlit "$") (mstar false Char.isWhitespace)))))))
    capCommaDigits (mlitCI "</div>") html

/-- Fallback `/class="price"[^>]*>\$?([\d,]+)/i`. -/
def searchOldPrice (html : List Char) : Option (List Char) :=
  searchCap
    (mseq (mlitCI "class=\"price\"")
      (mseq (mstar false (· != '>')) (mseq (mlit ">") (moptM (mlit "$")))))
    capCommaDigits meps html

/-- The `price` variable of `fetchCouponDetails` (lines 323-332): primary
`descPrice` marker, fallback generic `price` marker, default `0`. -/
def extractDiscountedPrice (html : List Char) : Option Nat :=
  match searchDescPrice html with
  | some g => parseCommaNum g
  | none =>
      match searchOldPrice html with
      | some g => parseCommaNum g
      | none => some 0

/-- `/原價(?:NT)?\$([\d,]+)/i`. -/
def searchOrigPrice (html : List Char) : Option (List Char) :=
  searchCap (mseq (mlit "原價") (mseq (moptM (mlitCI "NT")) (mlit "$")))
    capCommaDigits meps html

/-- `extractMaxValuePrice` (lines 142-160): two patterns in order
(`/最高價值(?:NT)?\$([\d,]+)/i`, `/\(最高價值(?:NT)?\$([\d,]+)元?\)/i`);
outer `none` = no pattern matched (`undefined`), inner value is the
`parseInt` result. -/
def extractMaxValuePrice (t : List Char) : Option (Option Nat) :=
  match searchCap (mseq (mlit "最高價值") (mseq (moptM (mlitCI "NT")) (mlit "$")))
      capCommaDigits meps t with
  | some g => some (parseCommaNum g)
  | none =>
      match searchCap (mseq (mlit "(最高價值") (mseq (moptM (mlitCI "NT")) (mlit "$")))
          capCommaDigits (mseq (moptM (mlit "元")) (mlit ")")) t with
      | some g => some (parseCommaNum g)
      | none => none

/-- JavaScript truthiness of a number (`0` and NaN are falsy). -/
def jsNumTruthy : Option Nat → Bool
  | none => false
  | some n => n != 0

/-- The `originalPrice` value of the incremental `fetchCouponDetails`
(lines 334-339 and 381-387): `0`; overwritten by a `原價` marker match;
if still `0`, overwritten by a truthy `extractMaxValuePrice` of the
title/items text. -/
def computeOriginalPrice (html allText : List Char) : Option Nat :=
  let op : Option Nat :=
    match searchOrigPrice html with
    | some g => parseCommaNum g
    | none => some 0
  if op = some 0 then
    match extractMaxValuePrice allText with
    | some mv => if jsNumTruthy mv then mv else op
    | none => op
  else op

/-- `Math.round(price * 1.5)` (legacy crawler.ts line 141) for a natural
price: exact in IEEE arithmetic, rounds halves up. -/
def jsRound15 (price : Nat) : Nat := (3 * price + 1) / 2

/-- Modelled from the spec: the claimed single original-price cascade
"explicit marker > embedded phrase > multiplier heuristic > zero/unknown",
with the multiplier being the legacy variant's `Math.round(price * 1.5)`.
No variant in the source implements this full chain; the definition exists
to compare the claim against `computeOriginalPrice`. -/
def specOriginalPriceCascade (html allText : List Char) (discounted : Nat) : Nat :=
  match searchOrigPrice html with
  | some g => (parseCommaNum g).getD 0
  | none =>
      match extractMaxValuePrice allText with
      | some (some v) => v
      | _ => if discounted != 0 then jsRound15 discounted else 0

/-! ### The menu category extractor (menu_crawler.ts lines 71-165) -/

/-- One `.promotion_list_item` element, abstracted to the cheerio
accesses the extractor performs on it (`none` models an absent attribute
or an absent `<a>`). -/
structure MenuEl where
  dataIdReal : Option (List Char)
  elemId : Option (List Char)
  nameText : List Char
  descHtml : List Char
  priceText : List Char
  originalPriceText : List Char
  simplePriceText : List Char
  href : Option (List Char)
deriving DecidableEq

/-- JavaScript `a || b` for an optional string (`undefined` and `''` are
falsy). -/
def jsOrString (a : Option (List Char)) (b : List Char) : List Char :=
  match a with
  | some s => if s = [] then b else s
  | none => b

/-- JavaScript `s.replace(pat, '')` for a plain-string pattern: remove the
first occurrence. -/
def replaceFirst (pat : List Char) : List Char → List Char
  | [] => []
  | c :: rest =>
      if pat.isPrefixOf (c :: rest) then (c :: rest).drop pat.length
      else c :: replaceFirst pat rest

/-- `realId || (elementId ? elementId.replace('itemss_p', '') : '')`
(menu_crawler.ts lines 75-77). -/
def extractId (el : MenuEl) : List Char :=
  jsOrString el.dataIdReal
    (match el.elemId with
     | some e => if e = [] then [] else replaceFirst ("itemss_p").data e
     | none => [])

/-- A `<br\s*\/?>` tag at the head of the text (`i` flag folds case);
returns the rest after it. -/
def matchBr (s : List Char) : Option (List Char) :=
  match s with
  | '<' :: b :: r :: rest =>
      if charLowerEq b 'b' && charLowerEq r 'r' then
        match rest.dropWhile Char.isWhitespace with
        | '/' :: '>' :: t => some t
        | '>' :: t => some t
        | _ => none
      else none
  | _ => none

/-- `html.replace(/<br\s*\/?>/gi, '\n')` with fuel (each step consumes at
least one character). -/
def replaceBrAux : Nat → List Char → List Char
  | 0, s => s
  | _ + 1, [] => []
  | fuel + 1, c :: rest =>
      match matchBr (c :: rest) with
      | some t => '\n' :: replaceBrAux fuel t
      | none => c :: replaceBrAux fuel rest

def replaceBr (s : List Char) : List Char := replaceBrAux s.length s

/-- `html.replace(/<[^>]+>/g, '')` with fuel. -/
def stripTagsAux : Nat → List Char → List Char
  | 0, s => s
  | _ + 1, [] => []
  | fuel + 1, c :: rest =>
      if c = '<' then
        let run := rest.takeWhile (· != '>')
        match rest.drop run.length with
        | '>' :: t =>
            if run.isEmpty then c :: stripTagsAux fuel rest
            else stripTagsAux fuel t
        | _ => c :: stripTagsAux fuel rest
      else c :: stripTagsAux fuel rest

def stripTags (s : List Char) : List Char := stripTagsAux s.length s

/-- Description cleaning (menu_crawler.ts lines 85-89): `<br>` to
newlines, all remaining tags stripped, then trimmed. -/
def cleanDescHtml (desc : List Char) : List Char := trimChars (stripTags (replaceBr desc))

/-- `parseInt(s.replace(/[^\d]/g, ''), 10)`: keep only the digits;
a digit-free string gives NaN (`none`). -/
def parseIntStripNonDigits (s : List Char) : Option Nat :=
  let ds := s.filter Char.isDigit
  if ds = [] then none else some (digitsToNat ds)

/-- The `price` variable (menu_crawler.ts lines 92-111): `.priceTxt`
text if nonempty, with the `.pro-li-pr` fallback applied exactly when the
price is still `0`. -/
def elPrice (el : MenuEl) : Option Nat :=
  let pt := trimChars el.priceText
  let price : Option Nat := if pt = [] then some 0 else parseIntStripNonDigits pt
  if price = some 0 then
    let sp := trimChars el.simplePriceText
    if sp = [] then price else parseIntStripNonDigits sp
  else price

/-- The `originalPrice` member (menu_crawler.ts lines 100-103 and
132-134): parsed from `.priceTxt_original`, attached only when truthy
(`none` = member absent). -/
def elOriginalPrice (el : MenuEl) : Option Nat :=
  let ot := trimChars el.originalPriceText
  let op : Option Nat := if ot = [] then some 0 else parseIntStripNonDigits ot
  match op with
  | some n => if n != 0 then some n else none
  | none => none

/-- The `productUrl` value (menu_crawler.ts lines 116-119). -/
def elUrl (el : MenuEl) : List Char :=
  let u := match el.href with | some h => h | none => []
  if u != [] && !(("http").data.isPrefixOf u) then
    ("https://www.pizzahut.com.tw/order/").data ++ u
  else u

/-- The persisted menu record (menu_crawler.ts lines 11-21; the unused
`sizes` member is never attached).  `price` is a JavaScript number
(`none` = NaN); `originalPrice` is `none` when the member is absent. -/
structure MenuProduct where
  id : List Char
  name : List Char
  description : List Char
  price : Option Nat
  originalPrice : Option Nat
  category : List Char
  categoryId : Nat
  url : List Char
deriving DecidableEq

/-- The body of the `items.each` callback (menu_crawler.ts lines 71-144):
skip when the extracted id is empty, build the record, and push it only
when the trimmed name is nonempty. -/
def buildProduct (categoryName : List Char) (ct : Nat) (el : MenuEl) : Option MenuProduct :=
  let id := extractId el
  if id = [] then none
  else
    let name := trimChars el.nameText
    if name != [] then
      some { id := id, name := name, description := cleanDescHtml el.descHtml,
             price := elPrice el, originalPrice := elOriginalPrice el,
             category := categoryName, categoryId := ct, url := elUrl el }
    else none

/-- The element records of one fetched category page, in page order. -/
def fetchCategoryPure (categoryName : List Char) (ct : Nat) (els : List MenuEl) :
    List MenuProduct :=
  els.filterMap (buildProduct categoryName ct)

/-- The category identifiers of the `main` loop (`for ct = 1; ct <= 8`). -/
def menuCats : List Nat := [1, 2, 3, 4, 5, 6, 7, 8]

/-- `main` of menu_crawler.ts (lines 154-165): the per-category results
pushed into one flat `allProducts` list, category by category.  `els ct`
and `catName ct` abstract the fetched page of category `ct`. -/
def menuCrawlAll (els : Nat → List MenuEl) (catName : Nat → List Char) : List MenuProduct :=
  menuCats.foldl (fun acc ct => acc ++ fetchCategoryPure (catName ct) ct (els ct)) []

/-! ### Concrete fixtures used by counterexamples and witnesses -/

/-- A minimal coupon record with a given code and expiry string. -/
def mkCoupon (code vu : List Char) : Coupon :=
  { code := code, title := [], items := [], originalPrice := some 0,
    discountedPrice := some 0, validUntil := vu, minPurchasePrice := none,
    deliveryType := none }

/-- A probe environment in which every candidate code validates and the
detail fetch succeeds (the returned record carries the probed code, as
`fetchCouponDetails` always sets `code` to its argument). -/
def probeAllValid : List Char → Option Coupon := fun c => some (mkCoupon c [])

/-- A prior record whose `validUntil` is nonempty but not parseable as a
date. -/
def unparseableCoupon : Coupon := mkCoupon ("00001").data ("soon").data

/-- Sample text for the minimum-purchase cascade: an explicit `(含)以上`
amount together with a `9吋…買1送1` phrase, agreeing on 320. -/
def minPurchaseSample1 : List Char := ("NT$320元(含)以上 9吋鬆厚比薩買1送1").data

/-- Sample text where the explicit `(含)以上` amount (460) and the
`9吋…買1送1` fallback (320) disagree. -/
def minPurchaseSample2 : List Char := ("限定NT$460元(含)以上，9吋比薩買1送1").data

/-- A detail document with a discounted price but neither a `原價` marker
nor a `最高價值` phrase. -/
def plainPriceHtml : List Char := ("<div class=\"descPrice\">$100</div>").data

/-- Title/items text with no `最高價值` phrase. -/
def plainAllText : List Char := ("2個大比薩").data

/-- A detail document whose `descPrice` fragment carries a thousands
separator. -/
def commaPriceHtml : List Char := ("<div class=\"descPrice p\">$ 2,098</div>").data

/-- A fully populated menu element (canonical attribute present, nonempty
name). -/
def sampleMenuEl : MenuEl :=
  { dataIdReal := some (("326").data), elemId := some (("itemss_p999").data),
    nameText := (" 夏威夷比薩 ").data, descHtml := ("經典<br>口味").data,
    priceText := ("$580").data, originalPriceText := ("$968").data,
    simplePriceText := [], href := some (("?mode=step_2&ct=2").data) }

/-- A detail document carrying an explicit `原價` marker. -/
def markerPriceHtml : List Char := ("<p>原價NT$890</p>").data

/-! ### Helper lemmas -/

theorem splitDashAux_no_dash (x : List Char) (hx : ∀ c ∈ x, c ≠ '-') :
    ∀ s cur, splitDashAux (x ++ s) cur = splitDashAux s (x.reverse ++ cur) := by
  induction x with
  | nil => intro s cur; simp
  | cons c rest ih =>
      intro s cur
      have hc : c ≠ '-' := hx c (List.mem_cons_self c rest)
      have hrest : ∀ d ∈ rest, d ≠ '-' := fun d hd => hx d (List.mem_cons_of_mem c hd)
      simp only [List.cons_append, splitDashAux, if_neg hc, List.append_eq]
      rw [ih hrest s (c :: cur)]
      simp

theorem splitDashAux_all (y : List Char) (hy : ∀ c ∈ y, c ≠ '-') (cur : List Char) :
    splitDashAux y cur = [cur.reverse ++ y] := by
  have h := splitDashAux_no_dash y hy [] cur
  simp only [List.append_nil] at h
  rw [h]
  simp [splitDashAux]

theorem splitDash_two (x y : List Char) (hx : ∀ c ∈ x, c ≠ '-') (hy : ∀ c ∈ y, c ≠ '-') :
    splitDash (x ++ '-' :: y) = [x, y] := by
  unfold splitDash
  rw [splitDashAux_no_dash x hx ('-' :: y) []]
  simp only [splitDashAux, if_pos rfl, List.append_nil, List.reverse_reverse]
  rw [splitDashAux_all y hy []]
  simp

theorem jsNumber_no_dash (s : List Char) (a : Nat) (h : jsNumber s = some a) :
    ∀ c ∈ s, c ≠ '-' := by
  intro c hc
  unfold jsNumber at h
  split at h
  · subst s; cases hc
  · split at h
    · rename_i hall
      have := List.all_eq_true.mp hall c hc
      intro hcd; subst hcd; simp [Char.isDigit] at this
    · cases h

theorem contains_of_mem {α : Type} [BEq α] [LawfulBEq α] {l : List α} {a : α}
    (h : a ∈ l) : l.contains a = true :=
  List.elem_iff.mpr h

theorem containsSub_iff (pat : List Char) :
    ∀ s, containsSub pat s = true ↔ ∃ pre suf, s = pre ++ (pat ++ suf) := by
  intro s
  induction s with
  | nil =>
      simp only [containsSub, List.isPrefixOf_iff_prefix]
      constructor
      · intro h
        rw [List.prefix_nil] at h
        exact ⟨[], [], by simp [h]⟩
      · rintro ⟨pre, suf, h⟩
        have : pat = [] := by cases pre <;> simp_all
        simp [this]
  | cons c t ih =>
      simp only [containsSub, Bool.or_eq_true, List.isPrefixOf_iff_prefix]
      constructor
      · rintro (h | h)
        · obtain ⟨suf, hsuf⟩ := h
          exact ⟨[], suf, by simp [hsuf]⟩
        · obtain ⟨pre, suf, hps⟩ := ih.mp h
          exact ⟨c :: pre, suf, by simp [hps]⟩
      · rintro ⟨pre, suf, hps⟩
        cases pre with
        | nil =>
            left
            exact ⟨suf, by simpa using hps.symm⟩
        | cons c2 pre2 =>
            right
            simp only [List.cons_append, List.cons.injEq] at hps
            exact ih.mpr ⟨pre2, suf, hps.2⟩

theorem containsSub_trans {p q s : List Char} (hpq : containsSub p q = true)
    (hqs : containsSub q s = true) : containsSub p s = true := by
  obtain ⟨a, b, hab⟩ := (containsSub_iff p q).mp hpq
  obtain ⟨c, d, hcd⟩ := (containsSub_iff q s).mp hqs
  refine (containsSub_iff p s).mpr ⟨c ++ a, b ++ d, ?_⟩
  subst hab hcd
  simp

theorem containsSub_false_of_sub {p q s : List Char} (hpq : containsSub p q = true)
    (hps : containsSub p s = false) : containsSub q s = false := by
  cases h : containsSub q s
  · rfl
  · rw [containsSub_trans hpq h] at hps
    cases hps

/-! ### Claim theorems -/

/-- C3: for every range token `a-b` with numeric parts and `a <= b`, the
candidate generator contributes exactly the zero-padded decimal codes of
`a..b` in ascending order (`b-a+1` of them), and every malformed token
(unparsable part, or start > end) contributes zero codes; the generator is
a total function, so it cannot raise. -/
theorem rangeToken_codes_spec :
    (∀ da db a b, jsNumber da = some a → jsNumber db = some b → a ≤ b →
       parseArgsToCodes [da ++ '-' :: db] =
         (List.range' a (b + 1 - a)).map (fun i => padStart5 (natDigits i))) ∧
    (∀ tok, malformedToken tok = true → parseArgsToCodes [tok] = []) := by
  constructor
  · intro da db a b ha hb hab
    have hda := jsNumber_no_dash da a ha
    have hdb := jsNumber_no_dash db b hb
    have hdash : (da ++ '-' :: db).contains '-' = true :=
      contains_of_mem (by simp)
    simp only [parseArgsToCodes, List.flatMap_cons, List.flatMap_nil, List.append_nil]
    unfold parseToken
    rw [if_pos hdash, splitDash_two da db hda hdb]
    simp [ha, hb, hab]
  · intro tok h
    simp only [parseArgsToCodes, List.flatMap_cons, List.flatMap_nil, List.append_nil]
    unfold parseToken
    unfold malformedToken at h
    by_cases hdash : tok.contains '-' = true
    · rw [if_pos hdash] at h ⊢
      cases heq : splitDash tok with
      | nil => simp [heq]
      | cons p0 tail =>
          cases tail with
          | nil => simp [heq]
          | cons p1 rest =>
              cases h0 : jsNumber p0 with
              | none => simp [heq, h0]
              | some a =>
                  cases h1 : jsNumber p1 with
                  | none => simp [heq, h0, h1]
                  | some b =>
                      simp only [heq, h0, h1, decide_eq_true_eq] at h
                      simp [heq, h0, h1, Nat.not_le.mpr h]
    · rw [if_neg hdash] at h ⊢
      rw [Option.isNone_iff_eq_none] at h
      rw [h]

/-- C10: a token of the form `-N` (leading dash, numeric rest) is not
skipped: `''.split` yields an empty first part, JavaScript `Number('')` is
`0`, so the token is the range `0..N` and contributes `N+1` codes from
`00000` up to the padded `N`. -/
theorem leadingDash_token_spec (db : List Char) (b : Nat) (h : jsNumber db = some b) :
    parseArgsToCodes [('-' :: db)] =
      (List.range' 0 (b + 1)).map (fun i => padStart5 (natDigits i)) := by
  have hdb := jsNumber_no_dash db b h
  have hdash : ('-' :: db).contains '-' = true := contains_of_mem (by simp)
  have hsplit : splitDash ('-' :: db) = [[], db] := by
    have := splitDash_two [] db (by simp) hdb
    simpa using this
  simp only [parseArgsToCodes, List.flatMap_cons, List.flatMap_nil, List.append_nil]
  unfold parseToken
  rw [if_pos hdash, hsplit]
  simp [h, show jsNumber ([] : List Char) = some 0 from rfl]

/-- Witness for C3 at concrete inputs: the range `3-5` yields the three
padded codes and the reversed range `9-2` yields none. -/
theorem rangeToken_codes_spec_witness :
    parseArgsToCodes [("3").data ++ '-' :: ("5").data] =
      (List.range' 3 3).map (fun i => padStart5 (natDigits i)) ∧
    parseArgsToCodes [("9-2").data] = [] :=
  ⟨rangeToken_codes_spec.1 ("3").data ("5").data 3 5 (by decide) (by decide) (by decide),
   rangeToken_codes_spec.2 ("9-2").data (by decide)⟩

/-- Witness for C10 at the concrete token `-5`. -/
theorem leadingDash_token_spec_witness :
    parseArgsToCodes [('-' :: ("5").data)] =
      (List.range' 0 6).map (fun i => padStart5 (natDigits i)) :=
  leadingDash_token_spec ("5").data 5 (by decide)

theorem filterMap_probe_codes_sublist (probe : List Char → Option Coupon)
    (hprobe : ∀ c r, probe c = some r → r.code = c) :
    ∀ l : List (List Char), ((l.filterMap probe).map Coupon.code).Sublist l := by
  intro l
  induction l with
  | nil => simp
  | cons c t ih =>
      cases hp : probe c with
      | none =>
          simp only [List.filterMap_cons, hp]
          exact ih.cons c
      | some r =>
          simp only [List.filterMap_cons, hp, List.map_cons, hprobe c r hp]
          exact ih.cons₂ c

/-- C1 (amended): when the prior collection has pairwise distinct codes
and the run's candidate list has no duplicate codes, the merged output has
pairwise distinct codes, and its size is the number of retained prior
records plus the number of newly discovered records.  (As stated — with
duplicate candidates allowed — the claim is false; see the
counterexample.) -/
theorem mergeRun_nodup_spec (now : Nat) (prior : List Coupon)
    (probe : List Char → Option Coupon) (args : List (List Char))
    (hprior : (prior.map Coupon.code).Nodup)
    (hprobe : ∀ c r, probe c = some r → r.code = c)
    (hcand : (parseArgsToCodes args).Nodup) :
    ((mergeRun now prior probe args).map Coupon.code).Nodup ∧
    (mergeRun now prior probe args).length =
      (filterExpired now prior).length +
      (((parseArgsToCodes args).filter
          (fun c => !((filterExpired now prior).map Coupon.code).contains c)).filterMap
        probe).length := by
  simp only [mergeRun]
  refine ⟨?_, by simp⟩
  rw [List.map_append, List.nodup_append]
  have hexist : ((filterExpired now prior).map Coupon.code).Nodup :=
    hprior.sublist ((List.filter_sublist prior).map Coupon.code)
  have hscan : ((parseArgsToCodes args).filter
      (fun c => !((filterExpired now prior).map Coupon.code).contains c)).Nodup :=
    hcand.sublist (List.filter_sublist _)
  have hsub := filterMap_probe_codes_sublist probe hprobe
    ((parseArgsToCodes args).filter
      (fun c => !((filterExpired now prior).map Coupon.code).contains c))
  refine ⟨hexist, hsub.nodup hscan, ?_⟩
  intro x hx hx2
  have hxscan := hsub.subset hx2
  have hmemf := (List.mem_filter.mp hxscan).2
  rw [contains_of_mem hx] at hmemf
  simp at hmemf

/-- C1 counterexample: with an empty prior collection and the candidate
list of the overlapping range tokens `5-5 5-5`, a code that validates twice
produces two records with the same code in the merged output. -/
theorem mergeRun_dup_counterexample :
    ¬ (((mergeRun 0 [] probeAllValid [("5-5").data, ("5-5").data]).map Coupon.code).Nodup) := by
  decide

/-- Witness for C1 (amended) at a concrete run: empty prior collection,
candidate range `5-6`, every probe succeeding. -/
theorem mergeRun_nodup_spec_witness :
    ((mergeRun 0 [] probeAllValid [("5-6").data]).map Coupon.code).Nodup ∧
    (mergeRun 0 [] probeAllValid [("5-6").data]).length =
      (filterExpired 0 []).length +
      (((parseArgsToCodes [("5-6").data]).filter
          (fun c => !((filterExpired 0 ([] : List Coupon)).map Coupon.code).contains c)).filterMap
        probeAllValid).length :=
  mergeRun_nodup_spec 0 [] probeAllValid [("5-6").data] (by decide)
    (fun c r h => by
      simp only [probeAllValid, Option.some.injEq] at h
      rw [← h]; rfl)
    (by decide)

/-- C2 (amended): a prior record whose `validUntil` parses to a date
strictly before now is excluded from the retained set; a record with empty
`validUntil` is retained; a record with nonempty but unparseable
`validUntil` is also excluded (JavaScript `new Date` yields an Invalid
Date whose comparisons are all false — unknown expiry IS treated as
expired). -/
theorem expiryFilter_spec (now : Nat) (l : List Coupon) (c : Coupon) (hc : c ∈ l) :
    (c.validUntil = [] → c ∈ filterExpired now l) ∧
    (∀ t, parseDate c.validUntil = some t → t < now → c ∉ filterExpired now l) ∧
    (c.validUntil ≠ [] → parseDate c.validUntil = none → c ∉ filterExpired now l) := by
  refine ⟨?_, ?_, ?_⟩
  · intro h
    exact List.mem_filter.mpr ⟨hc, by simp [keepCoupon, h]⟩
  · intro t ht hlt hmem
    have := (List.mem_filter.mp hmem).2
    simp only [keepCoupon, ht] at this
    split at this
    · rename_i hemp
      rw [hemp] at ht
      simp [parseDate, splitDash, splitDashAux] at ht
    · simp only [decide_eq_true_eq] at this
      exact absurd this (Nat.not_le.mpr hlt)
  · intro hne hnone hmem
    have := (List.mem_filter.mp hmem).2
    simp only [keepCoupon, if_neg hne, hnone] at this
    exact Bool.false_ne_true this

/-- C2 counterexample: a record with the nonempty, unparseable
`validUntil` `"soon"` is dropped by the expiry filter, while the claim
says it must be retained. -/
theorem expiryFilter_unparseable_counterexample :
    unparseableCoupon.validUntil ≠ [] ∧
    parseDate unparseableCoupon.validUntil = none ∧
    unparseableCoupon ∉ filterExpired 0 [unparseableCoupon] := by
  refine ⟨by decide, by decide, ?_⟩
  intro h
  have : filterExpired 0 [unparseableCoupon] = [] := by decide
  rw [this] at h
  cases h

/-- Witness for C2 (amended) at concrete records: an already-expired
dated record, an empty-dated record, and the unparseable record. -/
theorem expiryFilter_spec_witness :
    (mkCoupon ("00002").data [] ∈
      filterExpired 20260101 [mkCoupon ("00002").data []]) ∧
    (mkCoupon ("00003").data ("2020-01-01").data ∉
      filterExpired 20260101 [mkCoupon ("00003").data ("2020-01-01").data]) := by
  constructor
  · exact (expiryFilter_spec 20260101 [mkCoupon ("00002").data []]
      (mkCoupon ("00002").data []) (by decide)).1 (by decide)
  · exact (expiryFilter_spec 20260101 [mkCoupon ("00003").data ("2020-01-01").data]
      (mkCoupon ("00003").data ("2020-01-01").data) (by decide)).2.1
      20200101 (by decide) (by decide)

/-- C4: the minimum-purchase extractor evaluates its rule groups in the
fixed priority order — explicit `(含)以上` patterns, the `此套餐合計`
combo-total pattern, `=…起` starting-price patterns, the 買1送1/買小送小
categorical default of 320, then the 單點大比薩 percentage rules over the
565 baseline — and returns the first matching rule's value without
consulting later rules; in particular, on text containing both an explicit
`(含)以上` amount and a `9吋…買1送1` phrase the explicit amount wins
(320 for `NT$320元(含)以上`, and 460 — not the fallback's 320 — when the
explicit amount is 460). -/
theorem minPurchase_cascade_spec :
    (∀ t v, minPriceRules t = some v → extractMinPurchasePrice t = some v) ∧
    (∀ t v, minPriceRules t = none → comboTotalRule t = some v →
       extractMinPurchasePrice t = some v) ∧
    (∀ t v, minPriceRules t = none → comboTotalRule t = none →
       startingPriceRules t = some v → extractMinPurchasePrice t = some v) ∧
    (∀ t, minPriceRules t = none → comboTotalRule t = none →
       startingPriceRules t = none → (test9inchBogo t || testSmallBogo t) = true →
       extractMinPurchasePrice t = some 320) ∧
    (∀ t, minPriceRules t = none → comboTotalRule t = none →
       startingPriceRules t = none → (test9inchBogo t || testSmallBogo t) = false →
       testBuySmall t = true → extractMinPurchasePrice t = some 320) ∧
    (∀ t, minPriceRules t = none → comboTotalRule t = none →
       startingPriceRules t = none → (test9inchBogo t || testSmallBogo t) = false →
       testBuySmall t = false → testHalfOff t = true →
       extractMinPurchasePrice t = some 283) ∧
    (∀ t g, minPriceRules t = none → comboTotalRule t = none →
       startingPriceRules t = none → (test9inchBogo t || testSmallBogo t) = false →
       testBuySmall t = false → testHalfOff t = false → discountDigitRule t = some g →
       extractMinPurchasePrice t = some (jsRound10 (565 * digitsToNat g))) ∧
    extractMinPurchasePrice minPurchaseSample1 = some 320 ∧
    (extractMinPurchasePrice minPurchaseSample2 = some 460 ∧
     test9inchBogo minPurchaseSample2 = true) := by
  refine ⟨?_, ?_, ?_, ?_, ?_, ?_, ?_, ?_, ?_, ?_⟩
  · intro t v h1
    simp [extractMinPurchasePrice, h1]
  · intro t v h1 h2
    simp [extractMinPurchasePrice, h1, h2]
  · intro t v h1 h2 h3
    simp [extractMinPurchasePrice, h1, h2, h3]
  · intro t h1 h2 h3 h4
    simp [extractMinPurchasePrice, h1, h2, h3, h4]
  · intro t h1 h2 h3 h4 h5
    simp [extractMinPurchasePrice, h1, h2, h3, h4, h5]
  · intro t h1 h2 h3 h4 h5 h6
    simp [extractMinPurchasePrice, h1, h2, h3, h4, h5, h6, jsRound10]
  · intro t g h1 h2 h3 h4 h5 h6 h7
    simp [extractMinPurchasePrice, h1, h2, h3, h4, h5, h6, h7]
  · decide
  · decide
  · decide

/-- Witness for C4: the first cascade conjunct applied at the concrete
disagreeing sample, whose explicit rule captures 460. -/
theorem minPurchase_cascade_spec_witness :
    extractMinPurchasePrice minPurchaseSample2 = some 460 :=
  minPurchase_cascade_spec.1 minPurchaseSample2 460 (by decide)

/-- C5: the delivery-type classifier returns `delivery` for an explicit
外送限定 label and `takeout` for an explicit 外帶限定 label (highest
precedence, 外送限定 checked first); otherwise, on the boilerplate-stripped
lowercased text: `delivery` when 限外送 appears and 外帶 does not,
`takeout` when 限外帶 appears and 外送 does not, `both` when 外送 and 外帶
both appear, the single mentioned type when exactly one appears, and
`none` when neither appears. -/
theorem deliveryType_spec (t : List Char) :
    (containsSub ("外送限定").data t = true → extractDeliveryType t = some .delivery) ∧
    (containsSub ("外送限定").data t = false → containsSub ("外帶限定").data t = true →
       extractDeliveryType t = some .takeout) ∧
    (containsSub ("外送限定").data t = false → containsSub ("外帶限定").data t = false →
      ((containsSub ("限外送").data (cleanedLower t) = true →
          containsSub ("外帶").data (cleanedLower t) = false →
          extractDeliveryType t = some .delivery) ∧
       (containsSub ("限外帶").data (cleanedLower t) = true →
          containsSub ("外送").data (cleanedLower t) = false →
          extractDeliveryType t = some .takeout) ∧
       (containsSub ("外送").data (cleanedLower t) = true →
          containsSub ("外帶").data (cleanedLower t) = true →
          extractDeliveryType t = some .both) ∧
       (containsSub ("外送").data (cleanedLower t) = true →
          containsSub ("外帶").data (cleanedLower t) = false →
          extractDeliveryType t = some .delivery) ∧
       (containsSub ("外帶").data (cleanedLower t) = true →
          containsSub ("外送").data (cleanedLower t) = false →
          extractDeliveryType t = some .takeout) ∧
       (containsSub ("外送").data (cleanedLower t) = false →
          containsSub ("外帶").data (cleanedLower t) = false →
          extractDeliveryType t = none))) := by
  refine ⟨?_, ?_, ?_⟩
  · intro h
    simp [extractDeliveryType, h]
  · intro hA hB
    simp [extractDeliveryType, hA, hB]
  · intro hA hB
    refine ⟨?_, ?_, ?_, ?_, ?_, ?_⟩
    · intro h1 h2
      simp [extractDeliveryType, hA, hB, h1, h2]
    · intro h1 h2
      have hno1 : containsSub ("限外送").data (cleanedLower t) = false :=
        containsSub_false_of_sub (p := ("外送").data) (by decide) h2
      have hdai : containsSub ("外帶").data (cleanedLower t) = true :=
        containsSub_trans (p := ("外帶").data) (by decide) h1
      simp [extractDeliveryType, hA, hB, h1, h2, hno1, hdai]
    · intro h1 h2
      simp [extractDeliveryType, hA, hB, h1, h2]
    · intro h1 h2
      have hs1 : containsSub ("外送/外帶").data (cleanedLower t) = false :=
        containsSub_false_of_sub (p := ("外帶").data) (by decide) h2
      have hs2 : containsSub ("外帶/外送").data (cleanedLower t) = false :=
        containsSub_false_of_sub (p := ("外帶").data) (by decide) h2
      have hno2 : containsSub ("限外帶").data (cleanedLower t) = false :=
        containsSub_false_of_sub (p := ("外帶").data) (by decide) h2
      by_cases h3 : containsSub ("限外送").data (cleanedLower t) = true
      · simp [extractDeliveryType, hA, hB, h1, h2, h3]
      · rw [Bool.not_eq_true] at h3
        simp [extractDeliveryType, hA, hB, h1, h2, h3, hs1, hs2, hno2]
    · intro h1 h2
      have hs1 : containsSub ("外送/外帶").data (cleanedLower t) = false :=
        containsSub_false_of_sub (p := ("外送").data) (by decide) h2
      have hs2 : containsSub ("外帶/外送").data (cleanedLower t) = false :=
        containsSub_false_of_sub (p := ("外送").data) (by decide) h2
      have hno1 : containsSub ("限外送").data (cleanedLower t) = false :=
        containsSub_false_of_sub (p := ("外送").data) (by decide) h2
      by_cases h3 : containsSub ("限外帶").data (cleanedLower t) = true
      · simp [extractDeliveryType, hA, hB, h1, h2, h3, hno1]
      · rw [Bool.not_eq_true] at h3
        simp [extractDeliveryType, hA, hB, h1, h2, h3, hno1, hs1, hs2]
    · intro h1 h2
      have hs1 : containsSub ("外送/外帶").data (cleanedLower t) = false :=
        containsSub_false_of_sub (p := ("外送").data) (by decide) h1
      have hs2 : containsSub ("外帶/外送").data (cleanedLower t) = false :=
        containsSub_false_of_sub (p := ("外送").data) (by decide) h1
      have hno1 : containsSub ("限外送").data (cleanedLower t) = false :=
        containsSub_false_of_sub (p := ("外送").data) (by decide) h1
      have hno2 : containsSub ("限外帶").data (cleanedLower t) = false :=
        containsSub_false_of_sub (p := ("外帶").data) (by decide) h2
      simp [extractDeliveryType, hA, hB, h1, h2, hno1, hno2, hs1, hs2]

/-- Witness for C5 at concrete texts: an exclusive delivery mention, a
text mentioning both types, and a text mentioning neither. -/
theorem deliveryType_spec_witness :
    extractDeliveryType (("限外送服務").data) = some .delivery ∧
    extractDeliveryType (("外送/外帶皆可").data) = some .both ∧
    extractDeliveryType (("好吃比薩").data) = none :=
  ⟨((deliveryType_spec (("限外送服務").data)).2.2 (by decide) (by decide)).1
      (by decide) (by decide),
   ((deliveryType_spec (("外送/外帶皆可").data)).2.2 (by decide) (by decide)).2.2.1
      (by decide) (by decide),
   ((deliveryType_spec (("好吃比薩").data)).2.2 (by decide) (by decide)).2.2.2.2.2
      (by decide) (by decide)⟩

/-- C6: every probe failure mode — thrown request, non-success status,
empty/whitespace body, unparseable body — yields the not-found result
(`none`), never a raised error (the model is a total function); and a
confirmed-valid response lacking an upstream `type_id` (absent `data`,
absent `type_id`, or an empty falsy one) falls back to `'1025'` for the
detail fetch. -/
theorem probeFailure_spec :
    (∀ p, checkCouponValidity .netError p = none) ∧
    (∀ p body, checkCouponValidity (.httpResponse false body) p = none) ∧
    (∀ p ok body, trimChars body = [] →
       checkCouponValidity (.httpResponse ok body) p = none) ∧
    (∀ p ok body, p body = none →
       checkCouponValidity (.httpResponse ok body) p = none) ∧
    (∀ r : CheckResult, r.data = none → resolveTypeId r = ("1025").data) ∧
    (∀ r : CheckResult, ∀ d, r.data = some d → d.type_id = none →
       resolveTypeId r = ("1025").data) := by
  refine ⟨fun p => rfl, fun p body => rfl, ?_, ?_, ?_, ?_⟩
  · intro p ok body h
    cases ok
    · rfl
    · simp [checkCouponValidity, h]
  · intro p ok body h
    cases ok
    · rfl
    · by_cases ht : trimChars body = []
      · simp [checkCouponValidity, ht]
      · simp [checkCouponValidity, ht, h]
  · intro r h
    simp [resolveTypeId, h]
  · intro r d h hd
    simp [resolveTypeId, h, hd]

/-- Witness for C6 at concrete failures: a whitespace-only body, an
unparseable body, and a success response with no `data` member. -/
theorem probeFailure_spec_witness :
    checkCouponValidity (.httpResponse true ((" ").data)) (fun _ => some { success := true, data := none }) = none ∧
    checkCouponValidity (.httpResponse true (("x").data)) (fun _ => none) = none ∧
    resolveTypeId { success := true, data := none } = ("1025").data :=
  ⟨probeFailure_spec.2.2.1 _ true ((" ").data) (by decide),
   probeFailure_spec.2.2.2.1 (fun _ => none) true (("x").data) rfl,
   probeFailure_spec.2.2.2.2.1 _ rfl⟩

/-- C7 (amended): in the incremental crawler's detail extractor,
`originalPrice` follows the precedence — explicit `原價` marker value when
present (and nonzero), otherwise the `最高價值` maximum-value phrase of
the title/items text when present (and truthy), otherwise `0` (unknown).
There is no multiplier step: the `Math.round(price * 1.5)` heuristic
exists only in the legacy crawler.ts variant, which has no `最高價值`
step. -/
theorem originalPrice_precedence_spec :
    (∀ html allText g v, searchOrigPrice html = some g → parseCommaNum g = some v →
       v ≠ 0 → computeOriginalPrice html allText = some v) ∧
    (∀ html allText v, searchOrigPrice html = none →
       extractMaxValuePrice allText = some (some v) → v ≠ 0 →
       computeOriginalPrice html allText = some v) ∧
    (∀ html allText, searchOrigPrice html = none →
       extractMaxValuePrice allText = none →
       computeOriginalPrice html allText = some 0) := by
  refine ⟨?_, ?_, ?_⟩
  · intro html allText g v h1 h2 hv
    simp [computeOriginalPrice, h1, h2, hv]
  · intro html allText v h1 h2 hv
    simp [computeOriginalPrice, h1, h2, jsNumTruthy, hv]
  · intro html allText h1 h2
    simp [computeOriginalPrice, h1, h2]

/-- C7 counterexample: a document with discounted price 100 and neither a
`原價` marker nor a `最高價值` phrase gets `originalPrice = 0` from the
code, while the claimed cascade would apply the 1.5x multiplier and
produce 150. -/
theorem originalPrice_multiplier_counterexample :
    extractDiscountedPrice plainPriceHtml = some 100 ∧
    computeOriginalPrice plainPriceHtml plainAllText = some 0 ∧
    specOriginalPriceCascade plainPriceHtml plainAllText 100 = 150 ∧
    computeOriginalPrice plainPriceHtml plainAllText ≠
      some (specOriginalPriceCascade plainPriceHtml plainAllText 100) := by
  refine ⟨by decide, by decide, by decide, by decide⟩

/-- Witness for C7 (amended) at concrete documents: the marker branch and
the phrase branch. -/
theorem originalPrice_precedence_spec_witness :
    computeOriginalPrice markerPriceHtml plainAllText = some 890 ∧
    computeOriginalPrice plainPriceHtml (("(最高價值NT$890元)").data) = some 890 :=
  ⟨originalPrice_precedence_spec.1 markerPriceHtml plainAllText (("890").data) 890
      (by decide) (by decide) (by decide),
   originalPrice_precedence_spec.2.1 plainPriceHtml (("(最高價值NT$890元)").data) 890
      (by decide) (by decide) (by decide)⟩

/-- C8: the price regex captures `[\d,]+` and the parser strips the
thousands-separator commas before `parseInt`, so a `descPrice` fragment
containing `$ 2,098` parses to 2098. -/
theorem priceComma_spec :
    (∀ html g, searchDescPrice html = some g →
       extractDiscountedPrice html = parseCommaNum g) ∧
    extractDiscountedPrice commaPriceHtml = some 2098 := by
  constructor
  · intro html g h
    simp [extractDiscountedPrice, h]
  · decide

/-- Witness for C8: the general conjunct applied at the concrete comma
document, whose capture is `2,098`. -/
theorem priceComma_spec_witness :
    extractDiscountedPrice commaPriceHtml = parseCommaNum (("2,098").data) :=
  priceComma_spec.1 commaPriceHtml (("2,098").data) (by decide)

/-- C9: a menu product record is emitted for an element exactly when both
an identifier (preferring `data-id-real` over the one derived from the
element id) and a nonempty trimmed name are extracted — elements lacking
either contribute nothing — and the per-category record lists are
concatenated into one flat output list. -/
theorem menuEmission_spec :
    (∀ cat ct el, (buildProduct cat ct el).isSome =
       (extractId el != [] && trimChars el.nameText != [])) ∧
    (∀ el : MenuEl, ∀ s, el.dataIdReal = some s → s ≠ [] → extractId el = s) ∧
    (∀ els catName, menuCrawlAll els catName =
       (menuCats.map (fun ct => fetchCategoryPure (catName ct) ct (els ct))).flatten) := by
  refine ⟨?_, ?_, ?_⟩
  · intro cat ct el
    by_cases h : extractId el = []
    · simp [buildProduct, h]
    · by_cases h2 : trimChars el.nameText = []
      · simp [buildProduct, h, h2]
      · simp [buildProduct, h, h2]
  · intro el s h hs
    simp [extractId, jsOrString, h, hs]
  · intro els catName
    simp [menuCrawlAll, menuCats, fetchCategoryPure]

/-- Witness for C9 at a concrete element with both identifiers present. -/
theorem menuEmission_spec_witness :
    (buildProduct (("大/小比薩").data) 2 sampleMenuEl).isSome =
      (extractId sampleMenuEl != [] && trimChars sampleMenuEl.nameText != []) ∧
    extractId sampleMenuEl = ("326").data :=
  ⟨menuEmission_spec.1 (("大/小比薩").data) 2 sampleMenuEl,
   menuEmission_spec.2.1 sampleMenuEl (("326").data) rfl (by decide)⟩

end CheapPizza
